import Mathlib

/-!
Shallow embedding of the Tool Lending Tracker (src/tool_lending_gui.py and
its near-identical variant src/tool_lending_gui_pl.py).

The registry state is the `data` dictionary `{"tools": [...], "borrowers":
[...], "loans": [...]}`.  Each handler method of `ToolLendingApp` is embedded
as a pure function from the registry and the relevant user inputs to an
`OpResult`, which records the registry after the handler returns, the branch
taken (as an error tag), whether a `messagebox.show*` dialog was displayed,
whether `save_data` ran, and whether `log_action` ran.  Confirmation dialogs
(`messagebox.askyesno`) are modelled by an explicit `confirm : Bool`
parameter and are not counted as shown messages.  Today's date
(`datetime.now().strftime`) is passed in as an explicit string parameter.
-/

/-- A loan record `{"tool": ..., "borrower": ..., "date": ...}` as built by
`ToolLendingApp._lend_tool`. -/
structure Loan where
  tool : String
  borrower : String
  date : String
  deriving DecidableEq

/-- The `data` dictionary owned by `ToolLendingApp`. -/
structure Registry where
  tools : List String
  borrowers : List String
  loans : List Loan
  deriving DecidableEq

/-- The default registry returned by `load_data` when the snapshot file is
missing or unreadable: `{"tools": [], "borrowers": [], "loans": []}`. -/
def initialData : Registry := ⟨[], [], []⟩

/-- Whitespace predicate of Python `str.strip()` (ASCII range: space, tab,
line feed, vertical tab, form feed, carriage return). -/
def isPySpace (c : Char) : Bool :=
  c == ' ' || c == '\t' || c == '\n' || c == Char.ofNat 11 || c == Char.ofNat 12 || c == '\r'

/-- Strip leading and trailing whitespace from a character list. -/
def stripChars (l : List Char) : List Char :=
  ((l.dropWhile isPySpace).reverse.dropWhile isPySpace).reverse

/-- Python `str.strip()` as called by the handlers (`.strip()` on the raw
entry text). -/
def pyStrip (s : String) : String := ⟨stripChars s.data⟩

/-- Branches of `ToolLendingApp._add_tool` / `_add_borrower` that return
without mutating.  `blankName` is the `if not name: return` branch (which
shows no dialog); `duplicate` is the `already exists!` warning branch. -/
inductive AddErr where
  | blankName
  | duplicate
  deriving DecidableEq

/-- Branches of `ToolLendingApp._delete_tool` / `_delete_borrower` that
return without mutating.  `noSelection` is the `Select a ... to delete.`
info branch, `inUse` the `currently borrowed!` / `has active loans!` warning
branch, and `notFound` the `ValueError` raised by `list.remove` when the
selected name is not in the list. -/
inductive DelErr where
  | noSelection
  | inUse
  | notFound
  deriving DecidableEq

/-- Branches of `ToolLendingApp._lend_tool` that return without mutating. -/
inductive LendErr where
  | blankInput
  | unknownTool
  | unknownBorrower
  | alreadyLent
  deriving DecidableEq

/-- Failure of `ToolLendingApp._return_tool`: the `ValueError` raised by
`list.remove` when no equal loan is present. -/
inductive RetErr where
  | notFound
  deriving DecidableEq

/-- Observable outcome of one handler call: the registry after the handler
returns, the error branch taken (if any), whether a `messagebox.show*`
dialog was displayed, whether `save_data` was called, and whether
`log_action` was called. -/
structure OpResult (ε : Type) where
  state : Registry
  err : Option ε
  msgShown : Bool
  saved : Bool
  logged : Bool
  deriving DecidableEq

/-- `ToolLendingApp._add_tool` (tool_lending_gui.py lines 611-622):
strip the entry text; silently return on blank; warn on duplicate;
else append the name and save. -/
def addTool (r : Registry) (raw : String) : OpResult AddErr :=
  let name := pyStrip raw
  if name = "" then ⟨r, some .blankName, false, false, false⟩
  else if name ∈ r.tools then ⟨r, some .duplicate, true, false, false⟩
  else ⟨{ r with tools := r.tools ++ [name] }, none, false, true, false⟩

/-- `ToolLendingApp._add_borrower` (lines 642-653), symmetric to `addTool`. -/
def addBorrower (r : Registry) (raw : String) : OpResult AddErr :=
  let name := pyStrip raw
  if name = "" then ⟨r, some .blankName, false, false, false⟩
  else if name ∈ r.borrowers then ⟨r, some .duplicate, true, false, false⟩
  else ⟨{ r with borrowers := r.borrowers ++ [name] }, none, false, true, false⟩

/-- `ToolLendingApp._delete_tool` (lines 624-640): `selection` is the
listbox selection (none when no row is selected), `confirm` the answer to
the `askyesno` dialog.  `list.remove` deletes the first equal element and
raises `ValueError` when absent. -/
def deleteTool (r : Registry) (selection : Option String) (confirm : Bool) :
    OpResult DelErr :=
  match selection with
  | none => ⟨r, some .noSelection, true, false, false⟩
  | some tool =>
    if ∃ loan ∈ r.loans, loan.tool = tool then
      ⟨r, some .inUse, true, false, false⟩
    else if confirm then
      if tool ∈ r.tools then
        ⟨{ r with tools := r.tools.erase tool }, none, false, true, false⟩
      else ⟨r, some .notFound, false, false, false⟩
    else ⟨r, none, false, false, false⟩

/-- `ToolLendingApp._delete_borrower` (lines 655-671), symmetric to
`deleteTool` with the `loan["borrower"]` check in place of `loan["tool"]`. -/
def deleteBorrower (r : Registry) (selection : Option String) (confirm : Bool) :
    OpResult DelErr :=
  match selection with
  | none => ⟨r, some .noSelection, true, false, false⟩
  | some borrower =>
    if ∃ loan ∈ r.loans, loan.borrower = borrower then
      ⟨r, some .inUse, true, false, false⟩
    else if confirm then
      if borrower ∈ r.borrowers then
        ⟨{ r with borrowers := r.borrowers.erase borrower }, none, false, true, false⟩
      else ⟨r, some .notFound, false, false, false⟩
    else ⟨r, none, false, false, false⟩

/-- `ToolLendingApp._lend_tool` (lines 673-707): strip both entries, then in
order check blank, unknown tool, unknown borrower, already borrowed; else
append `{"tool": tool, "borrower": borrower, "date": today}` and save/log. -/
def lendTool (r : Registry) (toolRaw borrowerRaw today : String) :
    OpResult LendErr :=
  let tool := pyStrip toolRaw
  let borrower := pyStrip borrowerRaw
  if tool = "" ∨ borrower = "" then
    ⟨r, some .blankInput, true, false, false⟩
  else if tool ∉ r.tools then
    ⟨r, some .unknownTool, true, false, false⟩
  else if borrower ∉ r.borrowers then
    ⟨r, some .unknownBorrower, true, false, false⟩
  else if ∃ loan ∈ r.loans, loan.tool = tool then
    ⟨r, some .alreadyLent, true, false, false⟩
  else
    ⟨{ r with loans := r.loans ++ [⟨tool, borrower, today⟩] }, none, false, true, true⟩

/-- `ToolLendingApp._return_tool` (lines 709-715): after confirmation,
`self.data["loans"].remove(loan)` removes the first loan equal (by content)
to `loan`, raising `ValueError` when none is; then save and log. -/
def returnTool (r : Registry) (loan : Loan) (confirm : Bool) : OpResult RetErr :=
  if confirm then
    if loan ∈ r.loans then
      ⟨{ r with loans := r.loans.erase loan }, none, false, true, true⟩
    else ⟨r, some .notFound, false, false, false⟩
  else ⟨r, none, false, false, false⟩

/-- The set comprehension `{loan["tool"] for loan in self.data["loans"]}` of
`_refresh_all` (membership in the set is membership in this list). -/
def loanTools (r : Registry) : List String := r.loans.map Loan.tool

/-- `available_tools` of `_refresh_all` (lines 554-560):
`[t for t in self.data["tools"] if t and t.strip() and t not in borrowed_tools]`. -/
def availableTools (r : Registry) : List String :=
  r.tools.filter (fun t => !(t == "") && !(pyStrip t == "") && !((loanTools r).contains t))

/-- `available_borrowers` of `_refresh_all`:
`[b for b in self.data["borrowers"] if b and b.strip()]`. -/
def availableBorrowers (r : Registry) : List String :=
  r.borrowers.filter (fun b => !(b == "") && !(pyStrip b == ""))

/-- Spec-side definition, following the spec wording: the tool set minus
tools referenced by any active loan, in insertion order, excluding entries
blank after trimming.  To be compared with `availableTools`. -/
def availableToolsSpec (r : Registry) : List String :=
  r.tools.filter (fun t => !(pyStrip t == "") && !(r.loans.any (fun loan => loan.tool == t)))

/-- Spec-side definition: the borrower set in insertion order, excluding
entries blank after trimming.  To be compared with `availableBorrowers`. -/
def availableBorrowersSpec (r : Registry) : List String :=
  r.borrowers.filter (fun b => !(pyStrip b == ""))

/-- The invariant of claim C1: at most one active loan references any given
tool name, i.e. the tools of the loan list are pairwise distinct. -/
def atMostOneLoanPerTool (r : Registry) : Prop :=
  (r.loans.map Loan.tool).Nodup

instance (r : Registry) : Decidable (atMostOneLoanPerTool r) :=
  inferInstanceAs (Decidable (r.loans.map Loan.tool).Nodup)

/-- Registry states reachable from the empty snapshot default through the
six handlers. -/
inductive Reachable : Registry → Prop where
  | init : Reachable initialData
  | addToolStep (r : Registry) (raw : String) :
      Reachable r → Reachable (addTool r raw).state
  | deleteToolStep (r : Registry) (sel : Option String) (confirm : Bool) :
      Reachable r → Reachable (deleteTool r sel confirm).state
  | addBorrowerStep (r : Registry) (raw : String) :
      Reachable r → Reachable (addBorrower r raw).state
  | deleteBorrowerStep (r : Registry) (sel : Option String) (confirm : Bool) :
      Reachable r → Reachable (deleteBorrower r sel confirm).state
  | lendStep (r : Registry) (toolRaw borrowerRaw today : String) :
      Reachable r → Reachable (lendTool r toolRaw borrowerRaw today).state
  | returnStep (r : Registry) (loan : Loan) (confirm : Bool) :
      Reachable r → Reachable (returnTool r loan confirm).state

/-- Python `str.lower()` as used in `SearchEntry._on_key` (characters are
lowercased one by one; the handlers only ever receive ASCII here). -/
def lowerStr (s : String) : String := ⟨s.data.map Char.toLower⟩

/-- Does the first list occur as a prefix of the second? -/
def startsWith : List Char → List Char → Bool
  | [], _ => true
  | _ :: _, [] => false
  | a :: as, b :: bs => a == b && startsWith as bs

/-- Does the first list occur as a contiguous sublist of the second?
This is Python `needle in haystack` on strings. -/
def containsSub (needle : List Char) : List Char → Bool
  | [] => needle.isEmpty
  | b :: bs => startsWith needle (b :: bs) || containsSub needle bs

/-- The proposition that `needle` occurs contiguously inside `haystack`. -/
def SubstringOf (needle haystack : List Char) : Prop :=
  ∃ pre post, haystack = pre ++ needle ++ post

/-- Python `value in item` on strings. -/
def pyInStr (needle haystack : String) : Bool :=
  containsSub needle.data haystack.data

/-- The filter recomputation of `SearchEntry._on_key` (lines 184-197):
`value = self.get().lower()`; on empty text the full list, else
`[item for item in self.full_list if value in item.lower()]`. -/
def filterCandidates (fullList : List String) (typed : String) : List String :=
  let value := lowerStr typed
  if value = "" then fullList
  else fullList.filter (fun item => pyInStr value (lowerStr item))

/-- Observable state of a `SearchEntry`: the host-supplied candidate list
(`full_list`), the filtered list, the entry text variable (`var`), whether
the popdown is displayed, and whether keyboard focus is on the entry. -/
structure SearchEntry where
  fullList : List String
  filteredList : List String
  varValue : String
  popdownOpen : Bool
  focusOnEntry : Bool
  deriving DecidableEq

/-- The navigation keysyms ignored by `_on_key`. -/
def navKeys : List String := ["Up", "Down", "Return", "Escape", "Tab"]

/-- `SearchEntry._on_key`: on a non-navigation keystroke, recompute
`filtered_list` from `full_list` and the current entry text, then show the
popdown when the filtered list is nonempty and hide it otherwise. -/
def onKey (s : SearchEntry) (keysym : String) : SearchEntry :=
  if keysym ∈ navKeys then s
  else
    let fl := filterCandidates s.fullList s.varValue
    { s with filteredList := fl, popdownOpen := !fl.isEmpty }

/-- Modelled from the documented behaviour of `tkinter` `Listbox.nearest(y)`
with the popdown unscrolled and rows `itemHeight` pixels tall (the popdown
uses 25, see `_show_popdown`): the index of the visible line nearest to
vertical coordinate `y`, clamped to the existing lines; `-1` on an empty
listbox. -/
def nearestIndex (count : Nat) (itemHeight : Nat) (y : Int) : Int :=
  if count = 0 then -1
  else min ((count : Int) - 1) (max 0 (y / (itemHeight : Int)))

/-- `SearchEntry._on_list_click` (lines 250-257, identical in both file
variants): look up the line nearest to the click, and if the index is
non-negative commit that line's text as the entry value, hide the popdown
and focus the entry. -/
def onListClick (s : SearchEntry) (y : Int) : SearchEntry :=
  let index := nearestIndex s.filteredList.length 25 y
  if 0 ≤ index then
    match s.filteredList[index.toNat]? with
    | some item => { s with varValue := item, popdownOpen := false, focusOnEntry := true }
    | none => s
  else s

/-! ### Facts about Python string strip -/
theorem dropWhile_head_eq_false {α : Type} {p : α → Bool} {l : List α} {c : α} {cs : List α}
    (h : l.dropWhile p = c :: cs) : p c = false := by
  induction l with
  | nil => simp [List.dropWhile] at h
  | cons a as ih =>
    rw [List.dropWhile_cons] at h
    split at h
    · exact ih h
    · cases h
      simpa using ‹¬ p c = true›

theorem dropWhile_dropWhile {α : Type} (p : α → Bool) (l : List α) :
    (l.dropWhile p).dropWhile p = l.dropWhile p := by
  cases h : l.dropWhile p with
  | nil => simp
  | cons c cs =>
    rw [List.dropWhile_cons]
    simp [dropWhile_head_eq_false h]

theorem head_false_of_stripped_append {α : Type} {p : α → Bool} {l t : List α} {c : α}
    {cs : List α} (hself : l.dropWhile p = l) (hsplit : l = (c :: cs) ++ t) :
    p c = false := by
  rw [hsplit, List.cons_append, List.dropWhile_cons] at hself
  split at hself
  · exfalso
    have hlen := congrArg List.length hself
    have hle : ((cs ++ t).dropWhile p).length ≤ (cs ++ t).length :=
      (List.dropWhile_sublist p).length_le
    rw [List.length_cons] at hlen
    omega
  · simpa using ‹¬ p c = true›

theorem rightDrop_preserves {p : Char → Bool} {l : List Char}
    (hself : l.dropWhile p = l) :
    ((l.reverse.dropWhile p).reverse).dropWhile p = (l.reverse.dropWhile p).reverse := by
  cases hBr : (l.reverse.dropWhile p).reverse with
  | nil => simp
  | cons c cs =>
    have hsplit : l = (c :: cs) ++ (l.reverse.takeWhile p).reverse := by
      have h1 : l.reverse.takeWhile p ++ l.reverse.dropWhile p = l.reverse :=
        List.takeWhile_append_dropWhile _ _
      have h2 := congrArg List.reverse h1
      rw [List.reverse_append, List.reverse_reverse] at h2
      rw [hBr] at h2
      exact h2.symm
    have hc : p c = false := head_false_of_stripped_append hself hsplit
    rw [List.dropWhile_cons]
    simp [hc]

theorem stripChars_leftStripped (l : List Char) :
    (stripChars l).dropWhile isPySpace = stripChars l := by
  have hA : (l.dropWhile isPySpace).dropWhile isPySpace = l.dropWhile isPySpace :=
    dropWhile_dropWhile _ _
  simpa [stripChars] using rightDrop_preserves hA

theorem stripChars_idem (l : List Char) : stripChars (stripChars l) = stripChars l := by
  show (((stripChars l).dropWhile isPySpace).reverse.dropWhile isPySpace).reverse = stripChars l
  rw [stripChars_leftStripped]
  have h2 : (stripChars l).reverse = (l.dropWhile isPySpace).reverse.dropWhile isPySpace := by
    simp [stripChars]
  rw [h2, dropWhile_dropWhile]
  rfl

theorem pyStrip_idem (s : String) : pyStrip (pyStrip s) = pyStrip s := by
  simp [pyStrip, stripChars_idem]

theorem pyStrip_empty : pyStrip "" = "" := rfl

theorem ne_empty_of_pyStrip_ne_empty {s : String} (h : pyStrip s ≠ "") : s ≠ "" := by
  intro hs
  exact h (hs ▸ pyStrip_empty)

/-! ### Facts about the substring check -/

theorem startsWith_iff (n h : List Char) :
    startsWith n h = true ↔ ∃ post, h = n ++ post := by
  induction n generalizing h with
  | nil =>
    simp [startsWith]
  | cons a as ih =>
    cases h with
    | nil =>
      simp [startsWith]
    | cons b bs =>
      simp only [startsWith, Bool.and_eq_true, beq_iff_eq, ih, List.cons_append]
      constructor
      · rintro ⟨rfl, post, rfl⟩
        exact ⟨post, rfl⟩
      · rintro ⟨post, hpost⟩
        injection hpost with h1 h2
        exact ⟨h1.symm, post, h2⟩

theorem containsSub_iff (n h : List Char) :
    containsSub n h = true ↔ SubstringOf n h := by
  induction h with
  | nil =>
    simp only [containsSub, List.isEmpty_iff, SubstringOf]
    constructor
    · rintro rfl
      exact ⟨[], [], rfl⟩
    · rintro ⟨pre, post, hh⟩
      rcases List.append_eq_nil.mp hh.symm with ⟨h1, h2⟩
      exact (List.append_eq_nil.mp h1).2
  | cons b bs ih =>
    simp only [containsSub, Bool.or_eq_true, startsWith_iff, ih, SubstringOf]
    constructor
    · rintro (⟨post, hpost⟩ | ⟨pre, post, rfl⟩)
      · exact ⟨[], post, by simpa using hpost⟩
      · exact ⟨b :: pre, post, rfl⟩
    · rintro ⟨pre, post, hh⟩
      cases pre with
      | nil =>
        left
        exact ⟨post, by simpa using hh⟩
      | cons c cs =>
        right
        rw [List.cons_append, List.cons_append] at hh
        injection hh with h1 h2
        exact ⟨cs, post, h2⟩

theorem containsSub_nil_left (h : List Char) : containsSub [] h = true := by
  cases h with
  | nil => rfl
  | cons b bs => simp [containsSub, startsWith]

/-! ### Helper facts about the handlers -/

theorem addTool_loans (r : Registry) (raw : String) :
    (addTool r raw).state.loans = r.loans := by
  simp only [addTool]
  split_ifs <;> rfl

theorem addBorrower_loans (r : Registry) (raw : String) :
    (addBorrower r raw).state.loans = r.loans := by
  simp only [addBorrower]
  split_ifs <;> rfl

theorem deleteTool_loans (r : Registry) (sel : Option String) (confirm : Bool) :
    (deleteTool r sel confirm).state.loans = r.loans := by
  cases sel with
  | none => rfl
  | some tool =>
    simp only [deleteTool]
    split_ifs <;> rfl

theorem deleteBorrower_loans (r : Registry) (sel : Option String) (confirm : Bool) :
    (deleteBorrower r sel confirm).state.loans = r.loans := by
  cases sel with
  | none => rfl
  | some borrower =>
    simp only [deleteBorrower]
    split_ifs <;> rfl

theorem addTool_err_unchanged (r : Registry) (raw : String) (e : AddErr)
    (h : (addTool r raw).err = some e) :
    (addTool r raw).state = r ∧ (addTool r raw).saved = false := by
  simp only [addTool] at h ⊢
  split_ifs at h ⊢ <;> simp_all

theorem addBorrower_err_unchanged (r : Registry) (raw : String) (e : AddErr)
    (h : (addBorrower r raw).err = some e) :
    (addBorrower r raw).state = r ∧ (addBorrower r raw).saved = false := by
  simp only [addBorrower] at h ⊢
  split_ifs at h ⊢ <;> simp_all

theorem deleteTool_err_unchanged (r : Registry) (sel : Option String) (confirm : Bool)
    (e : DelErr) (h : (deleteTool r sel confirm).err = some e) :
    (deleteTool r sel confirm).state = r ∧ (deleteTool r sel confirm).saved = false := by
  cases sel with
  | none => exact ⟨rfl, rfl⟩
  | some tool =>
    simp only [deleteTool] at h ⊢
    split_ifs at h ⊢ <;> simp_all

theorem deleteBorrower_err_unchanged (r : Registry) (sel : Option String) (confirm : Bool)
    (e : DelErr) (h : (deleteBorrower r sel confirm).err = some e) :
    (deleteBorrower r sel confirm).state = r ∧ (deleteBorrower r sel confirm).saved = false := by
  cases sel with
  | none => exact ⟨rfl, rfl⟩
  | some borrower =>
    simp only [deleteBorrower] at h ⊢
    split_ifs at h ⊢ <;> simp_all

theorem lendTool_err_unchanged (r : Registry) (toolRaw borrowerRaw today : String)
    (e : LendErr) (h : (lendTool r toolRaw borrowerRaw today).err = some e) :
    (lendTool r toolRaw borrowerRaw today).state = r ∧
      (lendTool r toolRaw borrowerRaw today).saved = false := by
  simp only [lendTool] at h ⊢
  split_ifs at h ⊢ <;> simp_all

theorem returnTool_err_unchanged (r : Registry) (loan : Loan) (confirm : Bool)
    (e : RetErr) (h : (returnTool r loan confirm).err = some e) :
    (returnTool r loan confirm).state = r ∧ (returnTool r loan confirm).saved = false := by
  simp only [returnTool] at h ⊢
  split_ifs at h ⊢
  all_goals simp_all

/-! ### Branch equations for `lendTool` -/

theorem lendTool_eq_blank (r : Registry) (tR bR today : String)
    (h : pyStrip tR = "" ∨ pyStrip bR = "") :
    lendTool r tR bR today = ⟨r, some .blankInput, true, false, false⟩ := by
  simp only [lendTool]
  rw [if_pos h]

theorem lendTool_eq_unknownTool (r : Registry) (tR bR today : String)
    (h1 : ¬(pyStrip tR = "" ∨ pyStrip bR = "")) (h2 : pyStrip tR ∉ r.tools) :
    lendTool r tR bR today = ⟨r, some .unknownTool, true, false, false⟩ := by
  simp only [lendTool]
  rw [if_neg h1, if_pos h2]

theorem lendTool_eq_unknownBorrower (r : Registry) (tR bR today : String)
    (h1 : ¬(pyStrip tR = "" ∨ pyStrip bR = "")) (h2 : pyStrip tR ∈ r.tools)
    (h3 : pyStrip bR ∉ r.borrowers) :
    lendTool r tR bR today = ⟨r, some .unknownBorrower, true, false, false⟩ := by
  simp only [lendTool]
  rw [if_neg h1, if_neg (not_not_intro h2), if_pos h3]

theorem lendTool_eq_alreadyLent (r : Registry) (tR bR today : String)
    (h1 : ¬(pyStrip tR = "" ∨ pyStrip bR = "")) (h2 : pyStrip tR ∈ r.tools)
    (h3 : pyStrip bR ∈ r.borrowers) (h4 : ∃ loan ∈ r.loans, loan.tool = pyStrip tR) :
    lendTool r tR bR today = ⟨r, some .alreadyLent, true, false, false⟩ := by
  simp only [lendTool]
  rw [if_neg h1, if_neg (not_not_intro h2), if_neg (not_not_intro h3), if_pos h4]

theorem lendTool_eq_success (r : Registry) (tR bR today : String)
    (h1 : ¬(pyStrip tR = "" ∨ pyStrip bR = "")) (h2 : pyStrip tR ∈ r.tools)
    (h3 : pyStrip bR ∈ r.borrowers) (h4 : ¬∃ loan ∈ r.loans, loan.tool = pyStrip tR) :
    lendTool r tR bR today =
      ⟨{ r with loans := r.loans ++ [⟨pyStrip tR, pyStrip bR, today⟩] },
        none, false, true, true⟩ := by
  simp only [lendTool]
  rw [if_neg h1, if_neg (not_not_intro h2), if_neg (not_not_intro h3), if_neg h4]

/-! ### Invariant preservation and success inversion -/

theorem lendTool_inv (r : Registry) (toolRaw borrowerRaw today : String)
    (h : atMostOneLoanPerTool r) :
    atMostOneLoanPerTool (lendTool r toolRaw borrowerRaw today).state := by
  by_cases h1 : pyStrip toolRaw = "" ∨ pyStrip borrowerRaw = ""
  · rw [lendTool_eq_blank r _ _ _ h1]
    exact h
  by_cases h2 : pyStrip toolRaw ∈ r.tools
  case neg => rw [lendTool_eq_unknownTool r _ _ _ h1 h2]; exact h
  by_cases h3 : pyStrip borrowerRaw ∈ r.borrowers
  case neg => rw [lendTool_eq_unknownBorrower r _ _ _ h1 h2 h3]; exact h
  by_cases h4 : ∃ loan ∈ r.loans, loan.tool = pyStrip toolRaw
  · rw [lendTool_eq_alreadyLent r _ _ _ h1 h2 h3 h4]
    exact h
  · rw [lendTool_eq_success r _ _ _ h1 h2 h3 h4]
    unfold atMostOneLoanPerTool at h ⊢
    simp only [List.map_append, List.map_cons, List.map_nil]
    rw [List.nodup_append]
    refine ⟨h, List.nodup_singleton _, ?_⟩
    intro a ha hb
    simp only [List.mem_singleton] at hb
    subst hb
    rcases List.mem_map.mp ha with ⟨loan, hloan, htool⟩
    exact h4 ⟨loan, hloan, htool⟩

theorem returnTool_inv (r : Registry) (loan : Loan) (confirm : Bool)
    (h : atMostOneLoanPerTool r) :
    atMostOneLoanPerTool (returnTool r loan confirm).state := by
  unfold atMostOneLoanPerTool at h ⊢
  unfold returnTool
  by_cases hc : confirm = true
  · rw [if_pos hc]
    by_cases hm : loan ∈ r.loans
    · rw [if_pos hm]
      exact List.Nodup.sublist (List.Sublist.map _ (List.erase_sublist loan r.loans)) h
    · rw [if_neg hm]
      exact h
  · rw [if_neg hc]
    exact h

theorem reachable_inv (r : Registry) (h : Reachable r) : atMostOneLoanPerTool r := by
  induction h with
  | init => simp [atMostOneLoanPerTool, initialData]
  | addToolStep r raw _ ih =>
    unfold atMostOneLoanPerTool at ih ⊢
    rw [addTool_loans]
    exact ih
  | deleteToolStep r sel confirm _ ih =>
    unfold atMostOneLoanPerTool at ih ⊢
    rw [deleteTool_loans]
    exact ih
  | addBorrowerStep r raw _ ih =>
    unfold atMostOneLoanPerTool at ih ⊢
    rw [addBorrower_loans]
    exact ih
  | deleteBorrowerStep r sel confirm _ ih =>
    unfold atMostOneLoanPerTool at ih ⊢
    rw [deleteBorrower_loans]
    exact ih
  | lendStep r toolRaw borrowerRaw today _ ih => exact lendTool_inv r toolRaw borrowerRaw today ih
  | returnStep r loan confirm _ ih => exact returnTool_inv r loan confirm ih

theorem lendTool_refused_of_loanExists (r : Registry) (toolRaw borrowerRaw today : String)
    (h : ∃ loan ∈ r.loans, loan.tool = pyStrip toolRaw) :
    (lendTool r toolRaw borrowerRaw today).err ≠ none ∧
      (lendTool r toolRaw borrowerRaw today).state = r := by
  by_cases h1 : pyStrip toolRaw = "" ∨ pyStrip borrowerRaw = ""
  · rw [lendTool_eq_blank r _ _ _ h1]
    exact ⟨by simp, rfl⟩
  by_cases h2 : pyStrip toolRaw ∈ r.tools
  case neg =>
    rw [lendTool_eq_unknownTool r _ _ _ h1 h2]
    exact ⟨by simp, rfl⟩
  by_cases h3 : pyStrip borrowerRaw ∈ r.borrowers
  case neg =>
    rw [lendTool_eq_unknownBorrower r _ _ _ h1 h2 h3]
    exact ⟨by simp, rfl⟩
  rw [lendTool_eq_alreadyLent r _ _ _ h1 h2 h3 h]
  exact ⟨by simp, rfl⟩

theorem lendTool_success (r : Registry) (toolRaw borrowerRaw today : String)
    (h : (lendTool r toolRaw borrowerRaw today).err = none) :
    pyStrip toolRaw ≠ "" ∧ pyStrip borrowerRaw ≠ "" ∧
    pyStrip toolRaw ∈ r.tools ∧ pyStrip borrowerRaw ∈ r.borrowers ∧
    (¬∃ loan ∈ r.loans, loan.tool = pyStrip toolRaw) ∧
    (lendTool r toolRaw borrowerRaw today).state =
      { r with loans := r.loans ++ [⟨pyStrip toolRaw, pyStrip borrowerRaw, today⟩] } := by
  by_cases h1 : pyStrip toolRaw = "" ∨ pyStrip borrowerRaw = ""
  · rw [lendTool_eq_blank r _ _ _ h1] at h
    exact absurd h (by simp)
  by_cases h2 : pyStrip toolRaw ∈ r.tools
  case neg =>
    rw [lendTool_eq_unknownTool r _ _ _ h1 h2] at h
    exact absurd h (by simp)
  by_cases h3 : pyStrip borrowerRaw ∈ r.borrowers
  case neg =>
    rw [lendTool_eq_unknownBorrower r _ _ _ h1 h2 h3] at h
    exact absurd h (by simp)
  by_cases h4 : ∃ loan ∈ r.loans, loan.tool = pyStrip toolRaw
  · rw [lendTool_eq_alreadyLent r _ _ _ h1 h2 h3 h4] at h
    exact absurd h (by simp)
  · push_neg at h1
    rw [lendTool_eq_success r _ _ _ (by tauto) h2 h3 h4]
    exact ⟨h1.1, h1.2, h2, h3, h4, rfl⟩

/-! ### Characterization of the refreshed candidate lists -/

theorem contains_iff_mem {α : Type} [BEq α] [LawfulBEq α] (l : List α) (a : α) :
    l.contains a = true ↔ a ∈ l := by
  simp [List.contains]

theorem contains_eq_false_iff {α : Type} [BEq α] [LawfulBEq α] (l : List α) (a : α) :
    l.contains a = false ↔ a ∉ l := by
  constructor
  · intro h hmem
    have h2 := (contains_iff_mem l a).mpr hmem
    rw [h] at h2
    cases h2
  · intro h
    cases hc : l.contains a with
    | false => rfl
    | true => exact absurd ((contains_iff_mem l a).mp hc) h

theorem mem_loanTools (r : Registry) (t : String) :
    t ∈ loanTools r ↔ ∃ loan ∈ r.loans, loan.tool = t := by
  simp [loanTools, List.mem_map]


theorem mem_availableTools (r : Registry) (t : String) :
    t ∈ availableTools r ↔
      t ∈ r.tools ∧ pyStrip t ≠ "" ∧ ¬∃ loan ∈ r.loans, loan.tool = t := by
  simp only [availableTools, List.mem_filter, Bool.and_eq_true, Bool.not_eq_true',
    beq_eq_false_iff_ne, ne_eq, contains_eq_false_iff, mem_loanTools]
  constructor
  · rintro ⟨hm, ⟨-, h2⟩, h3⟩
    exact ⟨hm, h2, h3⟩
  · rintro ⟨hm, h2, h3⟩
    exact ⟨hm, ⟨fun h0 => h2 (by rw [h0]; rfl), h2⟩, h3⟩

theorem mem_availableBorrowers (r : Registry) (b : String) :
    b ∈ availableBorrowers r ↔ b ∈ r.borrowers ∧ pyStrip b ≠ "" := by
  simp only [availableBorrowers, List.mem_filter, Bool.and_eq_true, Bool.not_eq_true',
    beq_eq_false_iff_ne, ne_eq]
  constructor
  · rintro ⟨hm, -, h2⟩
    exact ⟨hm, h2⟩
  · rintro ⟨hm, h2⟩
    exact ⟨hm, fun h0 => h2 (by rw [h0]; rfl), h2⟩

theorem availableTools_eq_spec (r : Registry) :
    availableTools r = availableToolsSpec r := by
  unfold availableTools availableToolsSpec
  apply List.filter_congr
  intro t _
  rw [Bool.eq_iff_iff]
  simp only [Bool.and_eq_true, Bool.not_eq_true', beq_eq_false_iff_ne, ne_eq,
    contains_eq_false_iff, mem_loanTools, List.any_eq_false, beq_iff_eq, not_exists]
  constructor
  · rintro ⟨⟨-, h2⟩, h3⟩
    exact ⟨h2, fun x hx ht => h3 x ⟨hx, ht⟩⟩
  · rintro ⟨h2, h3⟩
    exact ⟨⟨fun h0 => h2 (by rw [h0]; rfl), h2⟩, fun x hx => h3 x hx.1 hx.2⟩

theorem availableBorrowers_eq_spec (r : Registry) :
    availableBorrowers r = availableBorrowersSpec r := by
  unfold availableBorrowers availableBorrowersSpec
  apply List.filter_congr
  intro b _
  rw [Bool.eq_iff_iff]
  simp only [Bool.and_eq_true, Bool.not_eq_true', beq_eq_false_iff_ne, ne_eq]
  constructor
  · rintro ⟨-, h2⟩
    exact h2
  · intro h2
    exact ⟨fun h0 => h2 (by rw [h0]; rfl), h2⟩

theorem availableBorrowers_loans_independent (r₁ r₂ : Registry)
    (h : r₁.borrowers = r₂.borrowers) :
    availableBorrowers r₁ = availableBorrowers r₂ := by
  unfold availableBorrowers
  rw [h]

/-! ### Facts about the typeahead filter -/

theorem filterCandidates_eq_filter (full : List String) (typed : String) :
    filterCandidates full typed =
      full.filter (fun item => pyInStr (lowerStr typed) (lowerStr item)) := by
  simp only [filterCandidates]
  by_cases h : lowerStr typed = ""
  · rw [if_pos h, h]
    symm
    rw [List.filter_eq_self]
    intro a _
    exact containsSub_nil_left _
  · rw [if_neg h]

theorem mem_filterCandidates (full : List String) (typed x : String) :
    x ∈ filterCandidates full typed ↔
      x ∈ full ∧ SubstringOf (lowerStr typed).data (lowerStr x).data := by
  rw [filterCandidates_eq_filter, List.mem_filter]
  simp only [pyInStr, containsSub_iff]

theorem onKey_filtered (s : SearchEntry) (k : String) (h : k ∉ navKeys) :
    (onKey s k).filteredList = filterCandidates s.fullList s.varValue := by
  unfold onKey
  rw [if_neg h]

/-! ### Facts about clicks on the popdown list -/

theorem nearestIndex_bounds (count : Nat) (h : count ≠ 0) (y : Int) :
    0 ≤ nearestIndex count 25 y ∧ nearestIndex count 25 y ≤ (count : Int) - 1 := by
  unfold nearestIndex
  rw [if_neg h]
  refine ⟨le_min (by omega) (le_max_left _ _), min_le_left _ _⟩

theorem nearestIndex_toNat_lt (count : Nat) (h : count ≠ 0) (y : Int) :
    (nearestIndex count 25 y).toNat < count := by
  obtain ⟨h1, h2⟩ := nearestIndex_bounds count h y
  omega

theorem nearestIndex_last (count : Nat) (h : count ≠ 0) (y : Int)
    (hy : 25 * ((count : Int) - 1) ≤ y) :
    nearestIndex count 25 y = (count : Int) - 1 := by
  unfold nearestIndex
  rw [if_neg h]
  simp only [Nat.cast_ofNat]
  have h0 : (0 : Int) ≤ (count : Int) - 1 := by omega
  have h1 : (count : Int) - 1 ≤ y / 25 := by
    rw [Int.le_ediv_iff_mul_le (by norm_num)]
    omega
  rw [max_eq_right (le_trans h0 h1), min_eq_left h1]

theorem nearestIndex_band (count i : Nat) (hi : i < count) (y : Int)
    (h1 : 25 * (i : Int) ≤ y) (h2 : y < 25 * ((i : Int) + 1)) :
    nearestIndex count 25 y = (i : Int) := by
  unfold nearestIndex
  rw [if_neg (by omega)]
  simp only [Nat.cast_ofNat]
  have hdiv : y / 25 = (i : Int) := by
    have ha : (i : Int) ≤ y / 25 := by
      rw [Int.le_ediv_iff_mul_le (by norm_num)]
      omega
    have hb : y / 25 < (i : Int) + 1 := by
      rw [Int.ediv_lt_iff_lt_mul (by norm_num)]
      omega
    omega
  rw [hdiv, max_eq_right (by omega), min_eq_right (by omega)]

theorem onListClick_eq (s : SearchEntry) (y : Int) (h : s.filteredList ≠ [])
    (item : String)
    (hitem : s.filteredList[(nearestIndex s.filteredList.length 25 y).toNat]? = some item) :
    onListClick s y =
      { s with varValue := item, popdownOpen := false, focusOnEntry := true } := by
  unfold onListClick
  have h0 : 0 ≤ nearestIndex s.filteredList.length 25 y :=
    (nearestIndex_bounds _ (fun hc => h (List.length_eq_zero.mp hc)) y).1
  rw [if_pos h0, hitem]

/-! ### Claim theorems -/

/-- C1, counterexample to the claim as stated: in a registry satisfying the
at-most-one-active-loan-per-tool invariant where an active loan references
the tool name but the tool is not in the tool set, lend is refused with
`unknownTool`, not with `alreadyLent` (the unknown-tool check runs first). -/
theorem C1_counterexample :
    atMostOneLoanPerTool ⟨[], ["Alice"], [⟨"Hammer", "Bob", "2024-01-01"⟩]⟩ ∧
    (∃ loan ∈ (⟨[], ["Alice"], [⟨"Hammer", "Bob", "2024-01-01"⟩]⟩ : Registry).loans,
        loan.tool = pyStrip "Hammer") ∧
    (lendTool ⟨[], ["Alice"], [⟨"Hammer", "Bob", "2024-01-01"⟩]⟩
        "Hammer" "Alice" "2024-01-02").err = some LendErr.unknownTool ∧
    (lendTool ⟨[], ["Alice"], [⟨"Hammer", "Bob", "2024-01-01"⟩]⟩
        "Hammer" "Alice" "2024-01-02").err ≠ some LendErr.alreadyLent := by
  refine ⟨?_, ?_, ?_, ?_⟩ <;> decide

/-- C1 (amended): every handler preserves the at-most-one-active-loan-per-tool
invariant; lend never mutates the registry when an active loan already
references the stripped tool name (and reports `alreadyLent` specifically
when the blank and unknown-name checks pass); hence every reachable registry
state has at most one active loan per tool name. -/
theorem C1_loanUniqueness :
    (∀ r raw, atMostOneLoanPerTool r → atMostOneLoanPerTool (addTool r raw).state) ∧
    (∀ r sel confirm, atMostOneLoanPerTool r →
      atMostOneLoanPerTool (deleteTool r sel confirm).state) ∧
    (∀ r raw, atMostOneLoanPerTool r → atMostOneLoanPerTool (addBorrower r raw).state) ∧
    (∀ r sel confirm, atMostOneLoanPerTool r →
      atMostOneLoanPerTool (deleteBorrower r sel confirm).state) ∧
    (∀ r tR bR today, atMostOneLoanPerTool r →
      atMostOneLoanPerTool (lendTool r tR bR today).state) ∧
    (∀ r loan confirm, atMostOneLoanPerTool r →
      atMostOneLoanPerTool (returnTool r loan confirm).state) ∧
    (∀ r tR bR today, (∃ loan ∈ r.loans, loan.tool = pyStrip tR) →
      (lendTool r tR bR today).err ≠ none ∧ (lendTool r tR bR today).state = r) ∧
    (∀ r tR bR today, pyStrip tR ≠ "" → pyStrip bR ≠ "" →
      pyStrip tR ∈ r.tools → pyStrip bR ∈ r.borrowers →
      (∃ loan ∈ r.loans, loan.tool = pyStrip tR) →
      (lendTool r tR bR today).err = some LendErr.alreadyLent) ∧
    (∀ r, Reachable r → atMostOneLoanPerTool r) := by
  refine ⟨?_, ?_, ?_, ?_, lendTool_inv, returnTool_inv,
    lendTool_refused_of_loanExists, ?_, reachable_inv⟩
  · intro r raw h
    unfold atMostOneLoanPerTool at h ⊢
    rw [addTool_loans]
    exact h
  · intro r sel confirm h
    unfold atMostOneLoanPerTool at h ⊢
    rw [deleteTool_loans]
    exact h
  · intro r raw h
    unfold atMostOneLoanPerTool at h ⊢
    rw [addBorrower_loans]
    exact h
  · intro r sel confirm h
    unfold atMostOneLoanPerTool at h ⊢
    rw [deleteBorrower_loans]
    exact h
  · intro r tR bR today ht hb htm hbm hex
    rw [lendTool_eq_alreadyLent r tR bR today (by tauto) htm hbm hex]

/-- C1 witness: the amended theorem applied at concrete inputs (a successful
lend preserves the invariant, and the empty initial state satisfies it). -/
theorem C1_witness :
    atMostOneLoanPerTool
      (lendTool ⟨["Hammer"], ["Alice"], []⟩ "Hammer" "Alice" "2024-01-01").state ∧
    atMostOneLoanPerTool initialData :=
  ⟨C1_loanUniqueness.2.2.2.2.1 ⟨["Hammer"], ["Alice"], []⟩ "Hammer" "Alice" "2024-01-01"
      (by decide),
   C1_loanUniqueness.2.2.2.2.2.2.2.2 initialData Reachable.init⟩

/-- C2: for every registry and every pair of trimmed non-blank names, lend
fails with `unknownTool` when the tool is not in the tool set (regardless of
the borrower), else with `unknownBorrower` when the borrower is unknown,
else with `alreadyLent` when an active loan references the tool, else
appends the loan `(tool, borrower, today)` at the end of the loan list;
in every case matching is exact membership of the trimmed name. -/
theorem C2_lendChecksOrder (r : Registry) (t b today : String)
    (ht : pyStrip t = t) (ht0 : t ≠ "") (hb : pyStrip b = b) (hb0 : b ≠ "") :
    (t ∉ r.tools →
      lendTool r t b today = ⟨r, some .unknownTool, true, false, false⟩) ∧
    (t ∈ r.tools → b ∉ r.borrowers →
      lendTool r t b today = ⟨r, some .unknownBorrower, true, false, false⟩) ∧
    (t ∈ r.tools → b ∈ r.borrowers → (∃ loan ∈ r.loans, loan.tool = t) →
      lendTool r t b today = ⟨r, some .alreadyLent, true, false, false⟩) ∧
    (t ∈ r.tools → b ∈ r.borrowers → (¬∃ loan ∈ r.loans, loan.tool = t) →
      lendTool r t b today =
        ⟨{ r with loans := r.loans ++ [⟨t, b, today⟩] }, none, false, true, true⟩) := by
  have h1 : ¬(pyStrip t = "" ∨ pyStrip b = "") := by
    rw [ht, hb]
    tauto
  refine ⟨?_, ?_, ?_, ?_⟩
  · intro hm
    exact lendTool_eq_unknownTool r t b today h1 (by rw [ht]; exact hm)
  · intro htm hbm
    exact lendTool_eq_unknownBorrower r t b today h1 (by rw [ht]; exact htm)
      (by rw [hb]; exact hbm)
  · intro htm hbm hex
    exact lendTool_eq_alreadyLent r t b today h1 (by rw [ht]; exact htm)
      (by rw [hb]; exact hbm) (by rw [ht]; exact hex)
  · intro htm hbm hex
    rw [lendTool_eq_success r t b today h1 (by rw [ht]; exact htm)
      (by rw [hb]; exact hbm) (by rw [ht]; exact hex), ht, hb]

/-- C2 witness: the checks-order theorem applied at a concrete registry where
the lend succeeds and appends the dated loan. -/
theorem C2_witness :
    lendTool ⟨["Hammer"], ["Alice"], []⟩ "Hammer" "Alice" "2024-01-01" =
      ⟨⟨["Hammer"], ["Alice"], [⟨"Hammer", "Alice", "2024-01-01"⟩]⟩,
        none, false, true, true⟩ :=
  (C2_lendChecksOrder ⟨["Hammer"], ["Alice"], []⟩ "Hammer" "Alice" "2024-01-01"
      (by decide) (by decide) (by decide) (by decide)).2.2.2
    (by decide) (by decide) (by decide)

/-- C3: when lend succeeds, returning the loan it created restores the loan
list (hence the loan count) to its pre-lend value and makes the available
tool list include the lent tool again. -/
theorem C3_roundTrip (r : Registry) (tR bR today : String)
    (h : (lendTool r tR bR today).err = none) :
    (returnTool (lendTool r tR bR today).state
        ⟨pyStrip tR, pyStrip bR, today⟩ true).err = none ∧
    (returnTool (lendTool r tR bR today).state
        ⟨pyStrip tR, pyStrip bR, today⟩ true).state.loans = r.loans ∧
    (returnTool (lendTool r tR bR today).state
        ⟨pyStrip tR, pyStrip bR, today⟩ true).state.loans.length = r.loans.length ∧
    pyStrip tR ∈ availableTools (returnTool (lendTool r tR bR today).state
        ⟨pyStrip tR, pyStrip bR, today⟩ true).state := by
  obtain ⟨ht0, hb0, htm, hbm, hnol, hstate⟩ := lendTool_success r tR bR today h
  have hnotin : (⟨pyStrip tR, pyStrip bR, today⟩ : Loan) ∉ r.loans := by
    intro hm
    exact hnol ⟨⟨pyStrip tR, pyStrip bR, today⟩, hm, rfl⟩
  have hmem : (⟨pyStrip tR, pyStrip bR, today⟩ : Loan) ∈
      (lendTool r tR bR today).state.loans := by
    rw [hstate]
    simp
  have herase : (lendTool r tR bR today).state.loans.erase
      ⟨pyStrip tR, pyStrip bR, today⟩ = r.loans := by
    rw [hstate]
    show (r.loans ++ [(⟨pyStrip tR, pyStrip bR, today⟩ : Loan)]).erase
      (⟨pyStrip tR, pyStrip bR, today⟩ : Loan) = r.loans
    rw [List.erase_append_right _ hnotin, List.erase_cons_head]
    simp
  have hret : returnTool (lendTool r tR bR today).state
      ⟨pyStrip tR, pyStrip bR, today⟩ true =
      ⟨{ (lendTool r tR bR today).state with
          loans := (lendTool r tR bR today).state.loans.erase
            ⟨pyStrip tR, pyStrip bR, today⟩ }, none, false, true, true⟩ := by
    unfold returnTool
    rw [if_pos rfl, if_pos hmem]
  rw [hret]
  have htools : (lendTool r tR bR today).state.tools = r.tools := by
    rw [hstate]
  refine ⟨rfl, herase, by rw [herase], ?_⟩
  rw [mem_availableTools]
  constructor
  · show pyStrip tR ∈ (lendTool r tR bR today).state.tools
    rw [htools]
    exact htm
  constructor
  · rw [pyStrip_idem]
    exact ht0
  · show ¬∃ loan ∈ (lendTool r tR bR today).state.loans.erase
        ⟨pyStrip tR, pyStrip bR, today⟩, loan.tool = pyStrip tR
    rw [herase]
    exact hnol

/-- C3 witness: the round-trip theorem at a concrete one-tool registry. -/
theorem C3_witness :
    (returnTool (lendTool ⟨["Hammer"], ["Alice"], []⟩ "Hammer" "Alice" "2024-01-01").state
        ⟨pyStrip "Hammer", pyStrip "Alice", "2024-01-01"⟩ true).err = none ∧
    (returnTool (lendTool ⟨["Hammer"], ["Alice"], []⟩ "Hammer" "Alice" "2024-01-01").state
        ⟨pyStrip "Hammer", pyStrip "Alice", "2024-01-01"⟩ true).state.loans =
      (⟨["Hammer"], ["Alice"], []⟩ : Registry).loans ∧
    (returnTool (lendTool ⟨["Hammer"], ["Alice"], []⟩ "Hammer" "Alice" "2024-01-01").state
        ⟨pyStrip "Hammer", pyStrip "Alice", "2024-01-01"⟩ true).state.loans.length =
      (⟨["Hammer"], ["Alice"], []⟩ : Registry).loans.length ∧
    pyStrip "Hammer" ∈ availableTools
      (returnTool (lendTool ⟨["Hammer"], ["Alice"], []⟩ "Hammer" "Alice" "2024-01-01").state
        ⟨pyStrip "Hammer", pyStrip "Alice", "2024-01-01"⟩ true).state :=
  C3_roundTrip ⟨["Hammer"], ["Alice"], []⟩ "Hammer" "Alice" "2024-01-01" (by decide)

/-- C4: the available tool list equals the spec-side list (tool list in
insertion order minus blank-after-trim entries and tools referenced by
active loans), it is a sublist of the tool list (insertion order), it never
contains a tool referenced by an active loan; the available borrower list
equals its spec-side list and depends only on the borrower list, unchanged
by any change to the loan list. -/
theorem C4_availableLists :
    (∀ r, availableTools r = availableToolsSpec r) ∧
    (∀ r t, t ∈ availableTools r ↔
      t ∈ r.tools ∧ pyStrip t ≠ "" ∧ ¬∃ loan ∈ r.loans, loan.tool = t) ∧
    (∀ r, (availableTools r).Sublist r.tools) ∧
    (∀ r loan, loan ∈ r.loans → loan.tool ∉ availableTools r) ∧
    (∀ r, availableBorrowers r = availableBorrowersSpec r) ∧
    (∀ r, (availableBorrowers r).Sublist r.borrowers) ∧
    (∀ r₁ r₂, r₁.borrowers = r₂.borrowers →
      availableBorrowers r₁ = availableBorrowers r₂) := by
  refine ⟨availableTools_eq_spec, mem_availableTools, ?_, ?_,
    availableBorrowers_eq_spec, ?_, availableBorrowers_loans_independent⟩
  · intro r
    exact List.filter_sublist _
  · intro r loan hl hmem
    obtain ⟨-, -, hno⟩ := (mem_availableTools r loan.tool).mp hmem
    exact hno ⟨loan, hl, rfl⟩
  · intro r
    exact List.filter_sublist _

/-- C4 witness: the loan-independence conjunct applied to two concrete
registries with the same borrower list but different loan lists. -/
theorem C4_witness :
    availableBorrowers ⟨["Hammer"], ["Alice"], []⟩ =
      availableBorrowers ⟨[], ["Alice"], [⟨"Hammer", "Alice", "2024-01-01"⟩]⟩ :=
  C4_availableLists.2.2.2.2.2.2 ⟨["Hammer"], ["Alice"], []⟩
    ⟨[], ["Alice"], [⟨"Hammer", "Alice", "2024-01-01"⟩]⟩ rfl

/-- C5: whenever any handler reports an error, the registry is exactly
unchanged and no snapshot write (`save_data`) is performed. -/
theorem C5_rejectionAtomic :
    (∀ r raw e, (addTool r raw).err = some e →
      (addTool r raw).state = r ∧ (addTool r raw).saved = false) ∧
    (∀ r raw e, (addBorrower r raw).err = some e →
      (addBorrower r raw).state = r ∧ (addBorrower r raw).saved = false) ∧
    (∀ r sel confirm e, (deleteTool r sel confirm).err = some e →
      (deleteTool r sel confirm).state = r ∧ (deleteTool r sel confirm).saved = false) ∧
    (∀ r sel confirm e, (deleteBorrower r sel confirm).err = some e →
      (deleteBorrower r sel confirm).state = r ∧
        (deleteBorrower r sel confirm).saved = false) ∧
    (∀ r tR bR today e, (lendTool r tR bR today).err = some e →
      (lendTool r tR bR today).state = r ∧ (lendTool r tR bR today).saved = false) ∧
    (∀ r loan confirm e, (returnTool r loan confirm).err = some e →
      (returnTool r loan confirm).state = r ∧
        (returnTool r loan confirm).saved = false) :=
  ⟨addTool_err_unchanged, addBorrower_err_unchanged, deleteTool_err_unchanged,
    deleteBorrower_err_unchanged, lendTool_err_unchanged, returnTool_err_unchanged⟩

/-- C5 witness: atomic rejection at a concrete duplicate-tool input. -/
theorem C5_witness :
    (addTool ⟨["Hammer"], [], []⟩ "Hammer").state = ⟨["Hammer"], [], []⟩ ∧
    (addTool ⟨["Hammer"], [], []⟩ "Hammer").saved = false :=
  C5_rejectionAtomic.1 ⟨["Hammer"], [], []⟩ "Hammer" AddErr.duplicate (by decide)

/-- C6: a non-navigation keystroke recomputes the filtered list from the
full current candidate list and the current text only (never from the
previously filtered list); the result is exactly the candidates containing
the typed text as a case-insensitive substring, and empty text yields the
full candidate list. -/
theorem C6_filterSemantics :
    (∀ s k, k ∉ navKeys →
      (onKey s k).filteredList = filterCandidates s.fullList s.varValue) ∧
    (∀ s₁ s₂ k, k ∉ navKeys → s₁.fullList = s₂.fullList → s₁.varValue = s₂.varValue →
      (onKey s₁ k).filteredList = (onKey s₂ k).filteredList) ∧
    (∀ full typed x, x ∈ filterCandidates full typed ↔
      x ∈ full ∧ SubstringOf (lowerStr typed).data (lowerStr x).data) ∧
    (∀ full, filterCandidates full "" = full) := by
  refine ⟨onKey_filtered, ?_, mem_filterCandidates, ?_⟩
  · intro s₁ s₂ k hk hf hv
    rw [onKey_filtered s₁ k hk, onKey_filtered s₂ k hk, hf, hv]
  · intro full
    unfold filterCandidates
    rw [if_pos (show lowerStr "" = "" from rfl)]

/-- C6 witness: the recomputation conjunct applied to two concrete selector
states sharing candidates and text but with different stale filtered lists. -/
theorem C6_witness :
    (onKey ⟨["Hammer", "Wrench"], ["Wrench"], "ham", true, true⟩ "m").filteredList =
      (onKey ⟨["Hammer", "Wrench"], [], "ham", false, true⟩ "m").filteredList :=
  C6_filterSemantics.2.1 ⟨["Hammer", "Wrench"], ["Wrench"], "ham", true, true⟩
    ⟨["Hammer", "Wrench"], [], "ham", false, true⟩ "m" (by decide) rfl rfl

/-- C7, counterexample to the claim as stated: with candidates
`["Hammer", "Hand Drill", "Wrench"]` and typed text `"ha"` the filtered
list is not `["Hammer"]`, because `"ha"` is also a case-insensitive
substring of `"Hand Drill"`. -/
theorem C7_counterexample :
    filterCandidates ["Hammer", "Hand Drill", "Wrench"] "ha" ≠ ["Hammer"] := by
  decide

/-- C7 (amended): with candidates `["Hammer", "Hand Drill", "Wrench"]` and
typed text `"ha"` the filtered list is exactly `["Hammer", "Hand Drill"]`
(both contain `"ha"` case-insensitively); empty text restores the full
list. -/
theorem C7_filteredList :
    filterCandidates ["Hammer", "Hand Drill", "Wrench"] "ha" =
      ["Hammer", "Hand Drill"] ∧
    (onKey ⟨["Hammer", "Hand Drill", "Wrench"], ["Hammer", "Hand Drill", "Wrench"],
        "ha", true, true⟩ "a").filteredList = ["Hammer", "Hand Drill"] ∧
    filterCandidates ["Hammer", "Hand Drill", "Wrench"] "" =
      ["Hammer", "Hand Drill", "Wrench"] := by
  refine ⟨?_, ?_, ?_⟩ <;> decide

/-- C8: on a confirmed return, `return_loan` fails with the not-found error
(the `ValueError` of `list.remove`) and leaves the loan list unchanged when
no loan equal in tool, borrower and date is present; otherwise it removes
exactly one occurrence of that loan (the first), leaving every other loan
count unchanged. -/
theorem C8_returnLoan (r : Registry) (loan : Loan) :
    (loan ∉ r.loans →
      returnTool r loan true = ⟨r, some .notFound, false, false, false⟩) ∧
    (loan ∈ r.loans →
      (returnTool r loan true).err = none ∧
      (returnTool r loan true).state.loans = r.loans.erase loan ∧
      (returnTool r loan true).state.loans.length = r.loans.length - 1 ∧
      (returnTool r loan true).state.loans.count loan = r.loans.count loan - 1 ∧
      ∀ l2, l2 ≠ loan →
        (returnTool r loan true).state.loans.count l2 = r.loans.count l2) := by
  constructor
  · intro h
    unfold returnTool
    rw [if_pos rfl, if_neg h]
  · intro h
    have heq : returnTool r loan true =
        ⟨{ r with loans := r.loans.erase loan }, none, false, true, true⟩ := by
      unfold returnTool
      rw [if_pos rfl, if_pos h]
    rw [heq]
    refine ⟨rfl, rfl, ?_, ?_, ?_⟩
    · exact List.length_erase_of_mem h
    · exact List.count_erase_self loan r.loans
    · intro l2 hne
      exact List.count_erase_of_ne hne r.loans

/-- C8 witness: the not-found branch at a concrete registry with no loans. -/
theorem C8_witness :
    returnTool ⟨[], [], []⟩ ⟨"Hammer", "Alice", "2024-01-01"⟩ true =
      ⟨⟨[], [], []⟩, some RetErr.notFound, false, false, false⟩ :=
  (C8_returnLoan ⟨[], [], []⟩ ⟨"Hammer", "Alice", "2024-01-01"⟩).1 (by decide)

/-- C9, counterexample to the claim as stated: on whitespace-only input the
add-tool handler takes the blank branch, which shows no message dialog at
all (it fails silently), contradicting the claimed user-visible BlankName
message. -/
theorem C9_counterexample :
    (addTool initialData " ").err = some AddErr.blankName ∧
    (addTool initialData " ").msgShown = false ∧
    (addTool initialData " ").state = initialData := by
  refine ⟨?_, ?_, ?_⟩ <;> decide

/-- C9 (amended): for every raw input whose trimmed value is empty, add_tool
and add_borrower reject it silently: the registry is unchanged, nothing is
saved, and no message dialog is shown (the blank rejection is the silent
`if not name: return` branch, with no distinguishable user-visible error). -/
theorem C9_blankRejectionSilent (r : Registry) (raw : String)
    (h : pyStrip raw = "") :
    addTool r raw = ⟨r, some .blankName, false, false, false⟩ ∧
    addBorrower r raw = ⟨r, some .blankName, false, false, false⟩ := by
  constructor
  · simp only [addTool]
    rw [if_pos h]
  · simp only [addBorrower]
    rw [if_pos h]

/-- C9 witness: the silent blank rejection at a concrete whitespace input. -/
theorem C9_witness :
    addTool ⟨["Hammer"], [], []⟩ "  " =
      ⟨⟨["Hammer"], [], []⟩, some AddErr.blankName, false, false, false⟩ ∧
    addBorrower ⟨["Hammer"], [], []⟩ "  " =
      ⟨⟨["Hammer"], [], []⟩, some AddErr.blankName, false, false, false⟩ :=
  C9_blankRejectionSilent ⟨["Hammer"], [], []⟩ "  " (by decide)

/-- C10: with a non-empty filtered list, a click at any vertical coordinate
commits the list entry nearest to the click (the entry at the clamped index
`nearestIndex`), closes the popdown, and returns focus to the entry; a
click at or below the last entry's band commits the last entry, and a click
inside entry `i`'s band commits entry `i` — so a click on a non-empty list
always commits some candidate and is never a no-op. -/
theorem C10_listClickCommits (s : SearchEntry) (y : Int) (h : s.filteredList ≠ []) :
    s.filteredList[(nearestIndex s.filteredList.length 25 y).toNat]? =
      some ((onListClick s y).varValue) ∧
    (onListClick s y).varValue ∈ s.filteredList ∧
    (onListClick s y).popdownOpen = false ∧
    (onListClick s y).focusOnEntry = true ∧
    (25 * ((s.filteredList.length : Int) - 1) ≤ y →
      s.filteredList.getLast? = some ((onListClick s y).varValue)) ∧
    (∀ i : Nat, i < s.filteredList.length → 25 * (i : Int) ≤ y →
      y < 25 * ((i : Int) + 1) →
      s.filteredList[i]? = some ((onListClick s y).varValue)) := by
  have hc : s.filteredList.length ≠ 0 := fun h0 => h (List.length_eq_zero.mp h0)
  have hlt := nearestIndex_toNat_lt s.filteredList.length hc y
  obtain ⟨item, hitem⟩ :
      ∃ it, s.filteredList[(nearestIndex s.filteredList.length 25 y).toNat]? = some it :=
    ⟨_, List.getElem?_eq_getElem hlt⟩
  rw [onListClick_eq s y h item hitem]
  refine ⟨hitem, List.getElem?_mem hitem, rfl, rfl, ?_, ?_⟩
  · intro hy
    rw [List.getLast?_eq_getElem?]
    rw [nearestIndex_last _ hc y hy] at hitem
    have hcast : ((s.filteredList.length : Int) - 1).toNat = s.filteredList.length - 1 := by
      omega
    rw [hcast] at hitem
    exact hitem
  · intro i hi h1 h2
    rw [nearestIndex_band s.filteredList.length i hi y h1 h2] at hitem
    simpa using hitem

/-- C10 witness: the click-commit theorem at a concrete two-entry list with
a click below the last entry. -/
theorem C10_witness :
    ((onListClick ⟨["Hammer", "Wrench"], ["Hammer", "Wrench"], "", true, false⟩
        60).varValue ∈
      (⟨["Hammer", "Wrench"], ["Hammer", "Wrench"], "", true, false⟩ :
        SearchEntry).filteredList) ∧
    (⟨["Hammer", "Wrench"], ["Hammer", "Wrench"], "", true, false⟩ :
        SearchEntry).filteredList.getLast? =
      some ((onListClick ⟨["Hammer", "Wrench"], ["Hammer", "Wrench"], "", true, false⟩
        60).varValue) :=
  ⟨(C10_listClickCommits
      ⟨["Hammer", "Wrench"], ["Hammer", "Wrench"], "", true, false⟩ 60 (by decide)).2.1,
   (C10_listClickCommits
      ⟨["Hammer", "Wrench"], ["Hammer", "Wrench"], "", true, false⟩ 60
      (by decide)).2.2.2.2.1 (by decide)⟩
